import Mathlib

/-
Verification of the Pomodoro interval timer of TimeFlow (src/main.py,
class PomodoroTimer).  The embedding models the timer state record, the
QTimer tick source as a boolean running flag, and the two callback
contracts (phase-changed, session-finished) as an emitted event list.
Python integers are unbounded, so all counters are Lean Int; Python's
percent operator agrees with Int.emod whenever the divisor is positive.
-/

/-- Phase strings of the source: 'work', 'break', 'long_break'.
The Python field current_phase is Optional, with None meaning idle. -/
inductive Phase where
  | work
  | shortBreak
  | longBreak
deriving DecidableEq, Repr

/-- Callback invocations observable by the host application:
on_phase_changed(phase, remaining_seconds) and on_timer_finished().
The source passes self.current_phase, an Optional value, to
on_phase_changed, hence the Option Phase argument. -/
inductive Event where
  | phaseChanged (p : Option Phase) (remaining : Int)
  | timerFinished
deriving DecidableEq, Repr

/-- State of PomodoroTimer (src/main.py lines 153-229).  timerRunning
models whether the QTimer is active, i.e. whether the external
one-second tick source is scheduled to deliver ticks. -/
structure PomodoroTimer where
  work_seconds : Int
  break_seconds : Int
  long_break_seconds : Int
  rounds_before_long_break : Int
  remaining_seconds : Int
  current_phase : Option Phase
  completed_rounds : Int
  total_rounds : Int
  timerRunning : Bool
deriving DecidableEq, Repr

/-- The state built by PomodoroTimer.__init__ with durations and the
long-break round count as parameters (the source reads them from
Config; the host dialog overwrites work and break durations). -/
def PomodoroTimer.init (w b lb r : Int) : PomodoroTimer :=
  { work_seconds := w
    break_seconds := b
    long_break_seconds := lb
    rounds_before_long_break := r
    remaining_seconds := 0
    current_phase := none
    completed_rounds := 0
    total_rounds := 0
    timerRunning := false }

/-- PomodoroTimer._start_work_phase: sets phase to work, resets the
countdown to the work duration, starts the QTimer, fires
phase-changed. -/
def PomodoroTimer.start_work_phase (s : PomodoroTimer) : PomodoroTimer × List Event :=
  let s1 := { s with current_phase := some Phase.work
                     remaining_seconds := s.work_seconds
                     timerRunning := true }
  (s1, [Event.phaseChanged s1.current_phase s1.remaining_seconds])

/-- PomodoroTimer._start_break_phase: chooses long break when
completed_rounds mod rounds_before_long_break is 0, else short break,
then fires phase-changed.  Note: the source does not restart the
QTimer here. -/
def PomodoroTimer.start_break_phase (s : PomodoroTimer) : PomodoroTimer × List Event :=
  let s1 :=
    if s.completed_rounds % s.rounds_before_long_break = 0 then
      { s with current_phase := some Phase.longBreak
               remaining_seconds := s.long_break_seconds }
    else
      { s with current_phase := some Phase.shortBreak
               remaining_seconds := s.break_seconds }
  (s1, [Event.phaseChanged s1.current_phase s1.remaining_seconds])

/-- PomodoroTimer._phase_finished: stops the QTimer; if the finished
phase is work, increments completed_rounds and either fires
session-finished (round target met) or starts a break; any other
phase returns to work. -/
def PomodoroTimer.phase_finished (s : PomodoroTimer) : PomodoroTimer × List Event :=
  let s1 := { s with timerRunning := false }
  if s1.current_phase = some Phase.work then
    let s2 := { s1 with completed_rounds := s1.completed_rounds + 1 }
    if s2.completed_rounds ≥ s2.total_rounds then
      (s2, [Event.timerFinished])
    else
      s2.start_break_phase
  else
    s1.start_work_phase

/-- PomodoroTimer._tick: decrements remaining_seconds; at 0 or below
hands over to _phase_finished, otherwise fires phase-changed with the
post-decrement value. -/
def PomodoroTimer.tick (s : PomodoroTimer) : PomodoroTimer × List Event :=
  let s1 := { s with remaining_seconds := s.remaining_seconds - 1 }
  if s1.remaining_seconds ≤ 0 then
    s1.phase_finished
  else
    (s1, [Event.phaseChanged s1.current_phase s1.remaining_seconds])

/-- PomodoroTimer.start: records the round target, zeroes the
completed-round counter and starts a work phase. -/
def PomodoroTimer.start (s : PomodoroTimer) (total_rounds : Int) : PomodoroTimer × List Event :=
  PomodoroTimer.start_work_phase
    { s with total_rounds := total_rounds, completed_rounds := 0 }

/-- PomodoroTimer.stop: stops the QTimer and clears the phase. -/
def PomodoroTimer.stop (s : PomodoroTimer) : PomodoroTimer :=
  { s with timerRunning := false, current_phase := none }

/-- Calls the host can make on the timer; tick stands for a timeout of
the external one-second QTimer. -/
inductive TimerAction where
  | start (total_rounds : Int)
  | tick
  | stop
deriving DecidableEq, Repr

/-- One host-level step.  A QTimer that is stopped delivers no timeout,
so a tick action on a non-running timer is a no-op. -/
def PomodoroTimer.step (s : PomodoroTimer) : TimerAction → PomodoroTimer × List Event
  | TimerAction.start n => s.start n
  | TimerAction.tick => if s.timerRunning then s.tick else (s, [])
  | TimerAction.stop => (s.stop, [])

/-- Runs a list of actions, accumulating the emitted events. -/
def PomodoroTimer.run (s : PomodoroTimer) : List TimerAction → PomodoroTimer × List Event
  | [] => (s, [])
  | a :: rest =>
    let p : PomodoroTimer × List Event := s.step a
    let q : PomodoroTimer × List Event := p.1.run rest
    (q.1, p.2 ++ q.2)

/-- Invariant carried along timer-gated runs: the configured durations
are positive, the countdown is never negative, and whenever the tick
source is scheduled the countdown is strictly positive. -/
def TimerInv (s : PomodoroTimer) : Prop :=
  0 < s.work_seconds ∧ 0 < s.break_seconds ∧ 0 < s.long_break_seconds
  ∧ 0 ≤ s.remaining_seconds
  ∧ (s.timerRunning = true → 0 < s.remaining_seconds)

/-- Relation for C10: two timer states that agree everywhere except
that one carries a non-positive round target and the other the round
target 1, with a non-negative completed-round counter. -/
def SameButTarget (s t : PomodoroTimer) : Prop :=
  s = t
  ∨ (t = { s with total_rounds := 1 } ∧ s.total_rounds ≤ 0 ∧ 0 ≤ s.completed_rounds)

/-- Helper: with the QTimer stopped, a run made only of tick and stop
actions emits no events and leaves the timer stopped. -/
theorem run_no_start_no_events (acts : List TimerAction) :
    ∀ s : PomodoroTimer, s.timerRunning = false →
      (∀ a ∈ acts, a = TimerAction.tick ∨ a = TimerAction.stop) →
      (s.run acts).2 = [] ∧ (s.run acts).1.timerRunning = false := by
  induction acts with
  | nil => intro s hr _; simp [PomodoroTimer.run, hr]
  | cons a rest ih =>
    intro s hr h
    have hrest : ∀ a ∈ rest, a = TimerAction.tick ∨ a = TimerAction.stop := by
      intro b hb; exact h b (List.mem_cons_of_mem a hb)
    rcases h a (List.mem_cons_self a rest) with ha | ha <;> subst ha
    · have := ih s hr hrest
      simp [PomodoroTimer.run, PomodoroTimer.step, hr]
      exact this
    · have hs : (s.stop).timerRunning = false := rfl
      have := ih s.stop hs hrest
      simp [PomodoroTimer.run, PomodoroTimer.step]
      exact this

/-- C6: start(total_rounds) records the round target, resets the
completed-round counter to 0, enters the work phase with
remaining-seconds set to the work duration, starts the tick source,
and fires phase-changed exactly once with (work, work duration). -/
theorem start_begins_work_session (s : PomodoroTimer) (n : Int) :
    s.start n =
      ({ s with total_rounds := n
                completed_rounds := 0
                current_phase := some Phase.work
                remaining_seconds := s.work_seconds
                timerRunning := true },
       [Event.phaseChanged (some Phase.work) s.work_seconds]) := rfl

/-- C9: stop() only clears the current phase and the tick-scheduled
flag; the countdown, round counters, round target and all configured
durations are unchanged, and the next start() is what resets the
counters and the countdown. -/
theorem stop_frame (s : PomodoroTimer) (n : Int) :
    s.stop.remaining_seconds = s.remaining_seconds
    ∧ s.stop.completed_rounds = s.completed_rounds
    ∧ s.stop.total_rounds = s.total_rounds
    ∧ s.stop.work_seconds = s.work_seconds
    ∧ s.stop.break_seconds = s.break_seconds
    ∧ s.stop.long_break_seconds = s.long_break_seconds
    ∧ s.stop.rounds_before_long_break = s.rounds_before_long_break
    ∧ s.stop.current_phase = none
    ∧ s.stop.timerRunning = false
    ∧ (s.stop.start n).1.completed_rounds = 0
    ∧ (s.stop.start n).1.remaining_seconds = s.work_seconds
    ∧ (s.stop.start n).1.total_rounds = n :=
  ⟨rfl, rfl, rfl, rfl, rfl, rfl, rfl, rfl, rfl, rfl, rfl, rfl⟩

/-- C7: stop() cancels the pending tick and moves to idle without
firing a callback; it is idempotent; and after stop() no callback at
all is emitted by any sequence of tick and stop actions until the
next start(). -/
theorem stop_idempotent_no_callbacks (s : PomodoroTimer) :
    s.stop = { s with timerRunning := false, current_phase := none }
    ∧ s.stop.stop = s.stop
    ∧ (s.step TimerAction.stop).2 = []
    ∧ ∀ acts : List TimerAction,
        (∀ a ∈ acts, a = TimerAction.tick ∨ a = TimerAction.stop) →
        (s.stop.run acts).2 = [] := by
  refine ⟨rfl, rfl, rfl, ?_⟩
  intro acts h
  exact (run_no_start_no_events acts s.stop rfl h).1

/-- Witness for C7 at a concrete state and action sequence. -/
theorem stop_idempotent_no_callbacks_witness :
    ((PomodoroTimer.init 1 1 1 4).stop.run [TimerAction.tick, TimerAction.stop]).2 = [] := by
  refine (stop_idempotent_no_callbacks (PomodoroTimer.init 1 1 1 4)).2.2.2
    [TimerAction.tick, TimerAction.stop] ?_
  intro a ha
  simp at ha
  rcases ha with h | h
  · exact Or.inl h
  · exact Or.inr h

/-- C1: when a work phase completes and the incremented round count
has not reached the target, the next phase is the long break exactly
when the incremented count is divisible by rounds_before_long_break,
and the short break otherwise; with rounds_before_long_break = 4 the
long break happens exactly at multiples of 4. -/
theorem break_kind_selection (s : PomodoroTimer)
    (hw : s.current_phase = some Phase.work)
    (hlt : s.completed_rounds + 1 < s.total_rounds) :
    (s.phase_finished).1.current_phase =
      some (if (s.completed_rounds + 1) % s.rounds_before_long_break = 0
            then Phase.longBreak else Phase.shortBreak)
    ∧ (s.rounds_before_long_break = 4 →
        (((s.phase_finished).1.current_phase = some Phase.longBreak ↔
            (s.completed_rounds + 1) % 4 = 0)
        ∧ ((s.phase_finished).1.current_phase = some Phase.shortBreak ↔
            ¬ (s.completed_rounds + 1) % 4 = 0))) := by
  have hge : ¬ (s.completed_rounds + 1 ≥ s.total_rounds) := by omega
  constructor
  · by_cases hc : (s.completed_rounds + 1) % s.rounds_before_long_break = 0 <;>
      simp [PomodoroTimer.phase_finished, PomodoroTimer.start_break_phase, hw, hge, hc]
  · intro h4
    by_cases hc : (s.completed_rounds + 1) % 4 = 0 <;>
      simp [PomodoroTimer.phase_finished, PomodoroTimer.start_break_phase, hw, hge, h4, hc]

/-- Witness for C1: round target 3, first work round completes, the
round count becomes 1, 1 mod 4 is nonzero, so the short break. -/
theorem break_kind_selection_witness :
    (({ PomodoroTimer.init 9 9 9 4 with
        current_phase := some Phase.work, total_rounds := 3 } : PomodoroTimer).phase_finished).1.current_phase
      = some Phase.shortBreak := by
  have h := (break_kind_selection
    { PomodoroTimer.init 9 9 9 4 with
      current_phase := some Phase.work, total_rounds := 3 }
    (by decide) (by decide)).1
  simpa using h

/-- C3: while a phase is active, a tick decrements the countdown by
exactly 1; a strictly positive result fires phase-changed with the
current phase and the post-decrement value; a result at or below 0
instead hands over to the phase-transition handler, whose only
emissions are session-finished or phase-changed for the newly entered
phase with that phase's freshly set countdown. -/
theorem tick_behavior (s : PomodoroTimer) (p : Phase)
    (hp : s.current_phase = some p) :
    (0 < s.remaining_seconds - 1 →
      s.tick = ({ s with remaining_seconds := s.remaining_seconds - 1 },
                 [Event.phaseChanged (some p) (s.remaining_seconds - 1)]))
    ∧ (s.remaining_seconds - 1 ≤ 0 →
      s.tick =
        PomodoroTimer.phase_finished { s with remaining_seconds := s.remaining_seconds - 1 })
    ∧ (∀ u : PomodoroTimer,
        (u.phase_finished).2 = [Event.timerFinished]
        ∨ ∃ q : Phase,
            (u.phase_finished).1.current_phase = some q
            ∧ (u.phase_finished).2 =
                [Event.phaseChanged (some q) ((u.phase_finished).1.remaining_seconds)]) := by
  refine ⟨?_, ?_, ?_⟩
  · intro h
    have hne : ¬ (s.remaining_seconds - 1 ≤ 0) := by omega
    simp [PomodoroTimer.tick, hne, hp]
  · intro h
    simp [PomodoroTimer.tick, h]
  · intro u
    rcases hcp : u.current_phase with _ | q
    · exact Or.inr ⟨Phase.work,
        by simp [PomodoroTimer.phase_finished, PomodoroTimer.start_work_phase, hcp]⟩
    · cases q with
      | work =>
        by_cases hge : u.completed_rounds + 1 ≥ u.total_rounds
        · exact Or.inl (by simp [PomodoroTimer.phase_finished, hcp, hge])
        · by_cases hc : (u.completed_rounds + 1) % u.rounds_before_long_break = 0
          · exact Or.inr ⟨Phase.longBreak,
              by simp [PomodoroTimer.phase_finished, PomodoroTimer.start_break_phase,
                       hcp, hge, hc]⟩
          · exact Or.inr ⟨Phase.shortBreak,
              by simp [PomodoroTimer.phase_finished, PomodoroTimer.start_break_phase,
                       hcp, hge, hc]⟩
      | shortBreak =>
        exact Or.inr ⟨Phase.work,
          by simp [PomodoroTimer.phase_finished, PomodoroTimer.start_work_phase, hcp]⟩
      | longBreak =>
        exact Or.inr ⟨Phase.work,
          by simp [PomodoroTimer.phase_finished, PomodoroTimer.start_work_phase, hcp]⟩

/-- Witness for C3: a work phase with 3 seconds left ticks down to 2
and fires phase-changed (work, 2). -/
theorem tick_behavior_witness :
    (({ PomodoroTimer.init 5 5 5 4 with
        current_phase := some Phase.work, remaining_seconds := 3 } : PomodoroTimer).tick).2
      = [Event.phaseChanged (some Phase.work) 2] := by
  have h := (tick_behavior
    { PomodoroTimer.init 5 5 5 4 with
      current_phase := some Phase.work, remaining_seconds := 3 }
    Phase.work (by decide)).1 (by decide)
  rw [h]
  decide

/-- C8 counterexample: with one round of one second, start(1) then the
single tick fires session-finished, yet the state after it still has
current_phase = work, not the idle value none. -/
theorem finished_not_idle_cex :
    (((PomodoroTimer.init 1 1 1 4).run [TimerAction.start 1, TimerAction.tick]).2
      = [Event.phaseChanged (some Phase.work) 1, Event.timerFinished])
    ∧ ((PomodoroTimer.init 1 1 1 4).run [TimerAction.start 1, TimerAction.tick]).1.current_phase
      = some Phase.work
    ∧ ¬ ((PomodoroTimer.init 1 1 1 4).run [TimerAction.start 1, TimerAction.tick]).1.current_phase
      = none := by decide

/-- C8 amended: when the final work phase completes with the round
target met, session-finished is the only emission and the tick source
is stopped (so no further tick is delivered), but the current-phase
field keeps the value work instead of returning to idle; only stop()
or the next start() changes it. -/
theorem finished_stops_timer_phase_persists (s : PomodoroTimer)
    (hw : s.current_phase = some Phase.work)
    (hge : s.completed_rounds + 1 ≥ s.total_rounds) :
    (s.phase_finished).2 = [Event.timerFinished]
    ∧ (s.phase_finished).1.timerRunning = false
    ∧ (s.phase_finished).1.current_phase = some Phase.work
    ∧ ((s.phase_finished).1.step TimerAction.tick) = ((s.phase_finished).1, []) := by
  have h : s.phase_finished =
      ({ s with timerRunning := false, completed_rounds := s.completed_rounds + 1 },
       [Event.timerFinished]) := by
    simp [PomodoroTimer.phase_finished, hw, hge]
  rw [h]
  exact ⟨rfl, rfl, by simpa using hw, by simp [PomodoroTimer.step]⟩

/-- Witness for C8 at a concrete finishing state. -/
theorem finished_stops_timer_phase_persists_witness :
    (({ PomodoroTimer.init 1 1 1 4 with
        current_phase := some Phase.work, total_rounds := 1 } : PomodoroTimer).phase_finished).2
      = [Event.timerFinished] :=
  (finished_stops_timer_phase_persists
    { PomodoroTimer.init 1 1 1 4 with
      current_phase := some Phase.work, total_rounds := 1 }
    (by decide) (by decide)).1

/-- C4: a reachable state (work 2s, break 3s, start(2), two ticks) is
in the short-break phase with the tick source not scheduled, and a
further tick of the external clock is a no-op, so the break never
counts down and never returns to work. -/
theorem break_phase_not_scheduled :
    (((PomodoroTimer.init 2 3 5 4).run
        [TimerAction.start 2, TimerAction.tick, TimerAction.tick]).1.current_phase
      = some Phase.shortBreak)
    ∧ (((PomodoroTimer.init 2 3 5 4).run
        [TimerAction.start 2, TimerAction.tick, TimerAction.tick]).1.timerRunning = false)
    ∧ (((PomodoroTimer.init 2 3 5 4).run
        [TimerAction.start 2, TimerAction.tick, TimerAction.tick]).1.step TimerAction.tick
      = (((PomodoroTimer.init 2 3 5 4).run
          [TimerAction.start 2, TimerAction.tick, TimerAction.tick]).1, [])) := by decide

/-- Helper: the phase-transition handler keeps the timer invariant. -/
theorem phase_finished_inv (s : PomodoroTimer)
    (hw : 0 < s.work_seconds) (hb : 0 < s.break_seconds)
    (hlb : 0 < s.long_break_seconds) (hr : 0 ≤ s.remaining_seconds) :
    TimerInv (s.phase_finished).1 := by
  by_cases hcp : s.current_phase = some Phase.work
  · by_cases hge : s.completed_rounds + 1 ≥ s.total_rounds
    · simp [PomodoroTimer.phase_finished, TimerInv, hcp, hge]
      omega
    · by_cases hm : (s.completed_rounds + 1) % s.rounds_before_long_break = 0 <;>
        simp [PomodoroTimer.phase_finished, PomodoroTimer.start_break_phase,
              TimerInv, hcp, hge, hm] <;> omega
  · simp [PomodoroTimer.phase_finished, PomodoroTimer.start_work_phase, TimerInv, hcp]
    omega

/-- Helper: every timer-gated step keeps the timer invariant. -/
theorem step_preserves_timer_inv (s : PomodoroTimer) (a : TimerAction)
    (h : TimerInv s) : TimerInv (s.step a).1 := by
  obtain ⟨hw, hb, hlb, hr, hrun⟩ := h
  cases a with
  | start n =>
    exact ⟨hw, hb, hlb, le_of_lt hw, fun _ => hw⟩
  | stop =>
    exact ⟨hw, hb, hlb, hr, fun hf => Bool.noConfusion hf⟩
  | tick =>
    by_cases hR : s.timerRunning = true
    · have hpos : 0 < s.remaining_seconds := hrun hR
      by_cases hz : s.remaining_seconds - 1 ≤ 0
      · have he : s.step TimerAction.tick =
            PomodoroTimer.phase_finished
              { s with remaining_seconds := s.remaining_seconds - 1 } := by
          simp [PomodoroTimer.step, PomodoroTimer.tick, hR, hz]
        rw [he]
        exact phase_finished_inv _ hw hb hlb
          (show 0 ≤ s.remaining_seconds - 1 by omega)
      · have he : s.step TimerAction.tick =
            ({ s with remaining_seconds := s.remaining_seconds - 1 },
             [Event.phaseChanged s.current_phase (s.remaining_seconds - 1)]) := by
          simp [PomodoroTimer.step, PomodoroTimer.tick, hR, hz]
        rw [he]
        exact ⟨hw, hb, hlb, show (0:Int) ≤ s.remaining_seconds - 1 by omega,
          fun _ => show (0:Int) < s.remaining_seconds - 1 by omega⟩
    · have he : s.step TimerAction.tick = (s, []) := by
        simp [PomodoroTimer.step, hR]
      rw [he]
      exact ⟨hw, hb, hlb, hr, hrun⟩

/-- Helper: runs of timer-gated actions keep the timer invariant. -/
theorem run_preserves_timer_inv (acts : List TimerAction) :
    ∀ s : PomodoroTimer, TimerInv s → TimerInv (s.run acts).1 := by
  induction acts with
  | nil => intro s hs; exact hs
  | cons a rest ih =>
    intro s hs
    exact ih (s.step a).1 (step_preserves_timer_inv s a hs)

/-- C5 counterexample: starting from positive one-second durations,
the trace start(1); tick; tick delivers every tick while a phase is
active (the phase is work throughout), yet it drives the countdown to
-1: the claim fails when ticks are gated only on an active phase,
because completing the session leaves the phase field set. -/
theorem remaining_negative_phase_active_cex :
    ((((PomodoroTimer.init 1 1 1 4).start 1).1.current_phase = some Phase.work)
    ∧ ((((PomodoroTimer.init 1 1 1 4).start 1).1.tick).1.current_phase = some Phase.work)
    ∧ (((((PomodoroTimer.init 1 1 1 4).start 1).1.tick).1.tick).1.current_phase
        = some Phase.work)
    ∧ (((((PomodoroTimer.init 1 1 1 4).start 1).1.tick).1.tick).1.remaining_seconds
        = -1)) := by decide

/-- C5 amended: with positive configured durations and ticks
delivered only while the tick source is scheduled (the QTimer gate),
the remaining-seconds counter is never negative in any reachable
state, over every sequence of start, tick and stop calls. -/
theorem remaining_nonneg_timer_gated (w b lb r : Int) (acts : List TimerAction)
    (hw : 0 < w) (hb : 0 < b) (hlb : 0 < lb) :
    0 ≤ ((PomodoroTimer.init w b lb r).run acts).1.remaining_seconds := by
  have h := run_preserves_timer_inv acts (PomodoroTimer.init w b lb r)
    ⟨hw, hb, hlb, le_refl 0, fun hf => Bool.noConfusion hf⟩
  exact h.2.2.2.1

/-- Witness for C5 at a concrete configuration and trace. -/
theorem remaining_nonneg_timer_gated_witness :
    0 ≤ ((PomodoroTimer.init 1 1 1 4).run
          [TimerAction.start 1, TimerAction.tick]).1.remaining_seconds :=
  remaining_nonneg_timer_gated 1 1 1 4 [TimerAction.start 1, TimerAction.tick]
    (by decide) (by decide) (by decide)

/-- Helper: unfolding a run one action at a time. -/
theorem run_cons (s : PomodoroTimer) (a : TimerAction) (rest : List TimerAction) :
    s.run (a :: rest) =
      (((s.step a).1.run rest).1, (s.step a).2 ++ ((s.step a).1.run rest).2) := rfl

/-- Helper: a run over a concatenation splits at the junction. -/
theorem run_append (xs ys : List TimerAction) :
    ∀ s : PomodoroTimer,
      s.run (xs ++ ys) =
        (((s.run xs).1.run ys).1, (s.run xs).2 ++ ((s.run xs).1.run ys).2) := by
  induction xs with
  | nil => intro s; simp [PomodoroTimer.run]
  | cons a rest ih =>
    intro s
    rw [List.cons_append, run_cons, ih (s.step a).1, run_cons]
    simp [List.append_assoc]

/-- Helper: the events of a concatenated run split at the junction. -/
theorem run_append_events (xs ys : List TimerAction) (s : PomodoroTimer) :
    (s.run (xs ++ ys)).2 = (s.run xs).2 ++ ((s.run xs).1.run ys).2 := by
  rw [run_append xs ys s]

/-- C2: with work 2s, break 3s and round target 2, after start(2) and
the two ticks of the work phase the timer sits in the short break
with the tick source stopped, and however many further one-second
timeouts the (stopped) QTimer could contribute, session-finished is
never fired: the session stalls in the first break because
_start_break_phase does not restart the QTimer. -/
theorem session_stalls_in_break :
    (((PomodoroTimer.init 2 3 5 4).run
        [TimerAction.start 2, TimerAction.tick, TimerAction.tick]).1.current_phase
      = some Phase.shortBreak)
    ∧ (((PomodoroTimer.init 2 3 5 4).run
        [TimerAction.start 2, TimerAction.tick, TimerAction.tick]).1.timerRunning = false)
    ∧ ∀ n : Nat,
        Event.timerFinished ∉
          ((PomodoroTimer.init 2 3 5 4).run
            ([TimerAction.start 2, TimerAction.tick, TimerAction.tick]
              ++ List.replicate n TimerAction.tick)).2 := by
  refine ⟨by decide, by decide, ?_⟩
  intro n
  rw [run_append_events [TimerAction.start 2, TimerAction.tick, TimerAction.tick]
      (List.replicate n TimerAction.tick) (PomodoroTimer.init 2 3 5 4)]
  have hstall := run_no_start_no_events (List.replicate n TimerAction.tick)
      (((PomodoroTimer.init 2 3 5 4).run
        [TimerAction.start 2, TimerAction.tick, TimerAction.tick]).1)
      (by decide)
      (fun a ha => Or.inl (List.eq_of_mem_replicate ha))
  rw [hstall.1]
  decide

/-- Helper: one step preserves the C10 relation and emits the same
events on both sides.  The key case: when a work phase completes, a
non-positive round target and the target 1 both satisfy the
completed-rounds comparison (the counter is at least 1 there), so
both sides finish. -/
theorem step_same_but_target (s t : PomodoroTimer) (a : TimerAction)
    (h : SameButTarget s t) :
    (s.step a).2 = (t.step a).2 ∧ SameButTarget (s.step a).1 (t.step a).1 := by
  rcases h with h | ⟨ht, htot, hc⟩
  · subst h; exact ⟨rfl, Or.inl rfl⟩
  · subst ht
    cases a with
    | start n => exact ⟨rfl, Or.inl rfl⟩
    | stop => exact ⟨rfl, Or.inr ⟨rfl, htot, hc⟩⟩
    | tick =>
      by_cases hR : s.timerRunning = true
      · by_cases hz : s.remaining_seconds - 1 ≤ 0
        · by_cases hcp : s.current_phase = some Phase.work
          · have hgs : s.completed_rounds + 1 ≥ s.total_rounds := by omega
            have hgt : s.completed_rounds + 1 ≥ (1 : Int) := by omega
            have hes : s.step TimerAction.tick =
                ({ s with remaining_seconds := s.remaining_seconds - 1,
                          timerRunning := false,
                          completed_rounds := s.completed_rounds + 1 },
                 [Event.timerFinished]) := by
              simp [PomodoroTimer.step, PomodoroTimer.tick,
                    PomodoroTimer.phase_finished, hR, hz, hcp, hgs]
            have het : PomodoroTimer.step { s with total_rounds := 1 } TimerAction.tick =
                ({ s with total_rounds := 1,
                          remaining_seconds := s.remaining_seconds - 1,
                          timerRunning := false,
                          completed_rounds := s.completed_rounds + 1 },
                 [Event.timerFinished]) := by
              simp [PomodoroTimer.step, PomodoroTimer.tick,
                    PomodoroTimer.phase_finished, hR, hz, hcp, hgt]
            rw [hes, het]
            exact ⟨rfl, Or.inr ⟨rfl, htot,
              show (0 : Int) ≤ s.completed_rounds + 1 by omega⟩⟩
          · have hes : s.step TimerAction.tick =
                ({ s with remaining_seconds := s.work_seconds,
                          current_phase := some Phase.work,
                          timerRunning := true },
                 [Event.phaseChanged (some Phase.work) s.work_seconds]) := by
              simp [PomodoroTimer.step, PomodoroTimer.tick,
                    PomodoroTimer.phase_finished, PomodoroTimer.start_work_phase,
                    hR, hz, hcp]
            have het : PomodoroTimer.step { s with total_rounds := 1 } TimerAction.tick =
                ({ s with total_rounds := 1,
                          remaining_seconds := s.work_seconds,
                          current_phase := some Phase.work,
                          timerRunning := true },
                 [Event.phaseChanged (some Phase.work) s.work_seconds]) := by
              simp [PomodoroTimer.step, PomodoroTimer.tick,
                    PomodoroTimer.phase_finished, PomodoroTimer.start_work_phase,
                    hR, hz, hcp]
            rw [hes, het]
            exact ⟨rfl, Or.inr ⟨rfl, htot, hc⟩⟩
        · have hes : s.step TimerAction.tick =
              ({ s with remaining_seconds := s.remaining_seconds - 1 },
               [Event.phaseChanged s.current_phase (s.remaining_seconds - 1)]) := by
            simp [PomodoroTimer.step, PomodoroTimer.tick, hR, hz]
          have het : PomodoroTimer.step { s with total_rounds := 1 } TimerAction.tick =
              ({ s with total_rounds := 1,
                        remaining_seconds := s.remaining_seconds - 1 },
               [Event.phaseChanged s.current_phase (s.remaining_seconds - 1)]) := by
            simp [PomodoroTimer.step, PomodoroTimer.tick, hR, hz]
          rw [hes, het]
          exact ⟨rfl, Or.inr ⟨rfl, htot, hc⟩⟩
      · have hes : s.step TimerAction.tick = (s, []) := by
          simp [PomodoroTimer.step, hR]
        have het : PomodoroTimer.step { s with total_rounds := 1 } TimerAction.tick =
            ({ s with total_rounds := 1 }, []) := by
          simp [PomodoroTimer.step, hR]
        rw [hes, het]
        exact ⟨rfl, Or.inr ⟨rfl, htot, hc⟩⟩

/-- Helper: states in the C10 relation emit the same events on every
action sequence. -/
theorem run_same_but_target (acts : List TimerAction) :
    ∀ s t : PomodoroTimer, SameButTarget s t →
      (s.run acts).2 = (t.run acts).2 := by
  induction acts with
  | nil => intro s t _; rfl
  | cons a rest ih =>
    intro s t h
    have hstep := step_same_but_target s t a h
    show (s.step a).2 ++ ((s.step a).1.run rest).2
      = (t.step a).2 ++ ((t.step a).1.run rest).2
    rw [hstep.1, ih _ _ hstep.2]

/-- C10: a non-positive round target is neither rejected nor a no-op:
start behaves exactly as for a positive target, the whole session is
observationally identical to start(1), and the final tick of the
first work phase fires session-finished because the round count 1
already meets the non-positive target. -/
theorem start_nonpositive_like_start_one (s : PomodoroTimer) (n : Int) (hn : n ≤ 0) :
    (s.start n).2 = [Event.phaseChanged (some Phase.work) s.work_seconds]
    ∧ (s.start n).1.current_phase = some Phase.work
    ∧ (s.start n).1.remaining_seconds = s.work_seconds
    ∧ (s.start n).1.timerRunning = true
    ∧ (∀ acts : List TimerAction,
        ((s.start n).1.run acts).2 = ((s.start 1).1.run acts).2)
    ∧ (∀ t : PomodoroTimer, t.current_phase = some Phase.work → t.total_rounds = n →
        t.completed_rounds = 0 → t.remaining_seconds = 1 →
        t.tick = ({ t with remaining_seconds := 0, timerRunning := false,
                           completed_rounds := 1 }, [Event.timerFinished])) := by
  refine ⟨rfl, rfl, rfl, rfl, ?_, ?_⟩
  · intro acts
    apply run_same_but_target
    exact Or.inr ⟨rfl, hn, le_refl 0⟩
  · intro t hcp htot hcomp hrem
    have hz : t.remaining_seconds - 1 ≤ 0 := by omega
    have hge : t.completed_rounds + 1 ≥ t.total_rounds := by omega
    have he : t.tick =
        ({ t with remaining_seconds := t.remaining_seconds - 1,
                  timerRunning := false,
                  completed_rounds := t.completed_rounds + 1 },
         [Event.timerFinished]) := by
      simp [PomodoroTimer.tick, PomodoroTimer.phase_finished, hz, hcp, hge]
    rw [he, hrem, hcomp]
    norm_num

/-- Witness for C10: start(0) on the default-shaped configuration. -/
theorem start_nonpositive_like_start_one_witness :
    ((PomodoroTimer.init 2 3 5 4).start 0).2
      = [Event.phaseChanged (some Phase.work) 2] :=
  (start_nonpositive_like_start_one (PomodoroTimer.init 2 3 5 4) 0 (by decide)).1
